import Mathlib

/-!
Shallow embedding of the real-time chat subsystem of
`src/src/socket/chat.socket.js` (presence registry, access guard,
message ledger handlers, connection lifecycle) together with proofs of
the frozen claims about it.

Conventions of the embedding:
* The relational store (`pool.query` against the tables
  `messages`, `message_edits`, `conversation_participants`) is modelled
  as an explicit `DbState` record of lists of rows; each SQL statement
  used by the handlers becomes a Lean function on `DbState`.
* Timestamps (`now()`) are `Nat`; SQL `NULL` timestamps are `Option Nat`.
* The in-memory `onlineSocketsByUser` `Map<string, Set<string>>` is an
  association list from user id to the list of live socket ids (the
  `Set` is a duplicate-free list in insertion order).
* Socket.io emits become an explicit list of `Event` values returned by
  each handler; the acknowledgment callback becomes the handler's
  result value.
-/

namespace ChatSocket

/-- The in-memory `onlineSocketsByUser` map: user id → set of socket ids. -/
abbrev Registry := List (String × List String)

/-- JS `Map.get(key)` on the registry (`undefined` becomes `none`). -/
def registryGet (reg : Registry) (key : String) : Option (List String) :=
  (reg.find? (fun e => e.1 = key)).map (fun e => e.2)

/-- JS `Map.set(key, v)`: overwrite the entry for `key`, or prepend a fresh one. -/
def registrySet (reg : Registry) (key : String) (v : List String) : Registry :=
  if (reg.find? (fun e => e.1 = key)).isSome then
    reg.map (fun e => if e.1 = key then (key, v) else e)
  else
    (key, v) :: reg

/-- JS `Map.delete(key)`. -/
def registryDelete (reg : Registry) (key : String) : Registry :=
  reg.filter (fun e => e.1 ≠ key)

/-- JS `Set.add(x)` on a duplicate-free list (no-op when already present). -/
def setAdd (s : List String) (x : String) : List String :=
  if x ∈ s then s else s ++ [x]

/-- JS `Set.delete(x)`. -/
def setDelete (s : List String) (x : String) : List String :=
  s.filter (fun y => y ≠ x)

/-- Function `addOnlineSocket(userId, socketId)` of `chat.socket.js`:
reads the existing set (empty if absent), records whether the user was
offline, adds the socket id, writes the set back, and returns
`wasOffline`. -/
def addOnlineSocket (reg : Registry) (userId socketId : String) :
    Registry × Bool :=
  let existing := (registryGet reg userId).getD []
  let wasOffline := existing.length = 0
  let updated := setAdd existing socketId
  (registrySet reg userId updated, wasOffline)

/-- Function `removeOnlineSocket(userId, socketId)` of `chat.socket.js`:
no-op returning `false` when the user has no entry; otherwise removes
the socket id, deletes the whole entry when the set became empty
(returning `true`), else writes the smaller set back (returning
`false`). -/
def removeOnlineSocket (reg : Registry) (userId socketId : String) :
    Registry × Bool :=
  match registryGet reg userId with
  | none => (reg, false)
  | some existing =>
    let remaining := setDelete existing socketId
    if remaining.length = 0 then
      (registryDelete reg userId, true)
    else
      (registrySet reg userId remaining, false)

/-- Function `isUserOnline(userId)` of `chat.socket.js`:
`Boolean(existing && existing.size > 0)`. -/
def isUserOnline (reg : Registry) (userId : String) : Bool :=
  match registryGet reg userId with
  | none => false
  | some existing => decide (existing.length > 0)

/-! Relational store -/

/-- A row of the `messages` table (columns used by the handlers). -/
structure Message where
  id : String
  conversationId : String
  senderUserId : String
  body : String
  createdAt : Nat
  editedAt : Option Nat
  deletedAt : Option Nat
deriving Repr, DecidableEq

/-- A row of the `message_edits` table. -/
structure MessageEdit where
  messageId : String
  version : Nat
  body : String
  editedByUserId : String
  editedAt : Nat
deriving Repr, DecidableEq

/-- A row of the `conversation_participants` table (columns used by the
handlers). -/
structure Participant where
  conversationId : String
  userId : String
  lastReadAt : Option Nat
deriving Repr, DecidableEq

/-- The relational store visible to the chat handlers. -/
structure DbState where
  messages : List Message
  messageEdits : List MessageEdit
  participants : List Participant
deriving Repr, DecidableEq

/-- Query `SELECT ... FROM messages WHERE id=$1` (`id` is the primary key, so
the handlers read `rows[0]`). -/
def findMessage (db : DbState) (messageId : String) : Option Message :=
  db.messages.find? (fun m => m.id = messageId)

/-- Function `ensureConversationAccess(conversationId, userId)`:
`SELECT 1 FROM conversation_participants WHERE conversation_id=$1 AND
user_id=$2`, then `rowCount > 0`. -/
def ensureConversationAccess (db : DbState)
    (conversationId userId : String) : Bool :=
  db.participants.any
    (fun p => p.conversationId = conversationId ∧ p.userId = userId)

/-- Query `SELECT COALESCE(MAX(version), 0) FROM message_edits WHERE
message_id=$1`. -/
def maxEditVersion (db : DbState) (messageId : String) : Nat :=
  (db.messageEdits.filter (fun e => e.messageId = messageId)).foldl
    (fun acc e => max acc e.version) 0

/-- Function `conversationRoom(conversationId)`. -/
def conversationRoom (conversationId : String) : String :=
  "conversation:" ++ conversationId

/-- Events the handlers emit to socket.io rooms. -/
inductive Event where
  | messageNew (message : Message)
  | messageUpdated (message : Message)
  | messageDeleted (messageId conversationId : String)
      (deletedAt : Nat) (deletedByUserId : String)
  | conversationRead (conversationId userId : String) (readAt : Option Nat)
  | presenceUpdate (userId : String) (isOnline : Bool)
deriving Repr, DecidableEq

/-! Message ledger handlers

Each handler is modelled after zod payload validation succeeded; the
acknowledgment callback becomes the handler's result value and the
socket.io emits become the returned `List Event`. -/

/-- Acknowledgment of the `message:edit` handler. -/
inductive EditResult where
  | error (msg : String)
  | ok (message : Message)
deriving Repr, DecidableEq

/-- The `message:edit` handler: look the message up; fail with
`"Message not found"`, `"Message is deleted"`, `"Not your message"`,
`"No access to conversation"` in that order; otherwise compute
`nextVersion = COALESCE(MAX(version),0) + 1`, insert a `message_edits`
row carrying the pre-edit body and the editor's id, update the message
row's `body` and `edited_at`, emit `message:updated` and acknowledge
with the updated row. -/
def editMessage (db : DbState) (userId messageId body : String)
    (now : Nat) : DbState × EditResult × List Event :=
  match findMessage db messageId with
  | none => (db, .error "Message not found", [])
  | some existing =>
    if existing.deletedAt.isSome then
      (db, .error "Message is deleted", [])
    else if existing.senderUserId ≠ userId then
      (db, .error "Not your message", [])
    else if ¬ ensureConversationAccess db existing.conversationId userId then
      (db, .error "No access to conversation", [])
    else
      let nextVersion := maxEditVersion db messageId + 1
      let newEdit : MessageEdit :=
        ⟨messageId, nextVersion, existing.body, userId, now⟩
      let message : Message := { existing with body := body, editedAt := some now }
      let db2 : DbState :=
        { db with
          messageEdits := db.messageEdits ++ [newEdit]
          messages := db.messages.map
            (fun m => if m.id = messageId
              then { m with body := body, editedAt := some now } else m) }
      (db2, .ok message, [.messageUpdated message])

/-- Acknowledgment of the `message:delete` handler:
`socketOk({message})` after a fresh deletion, or
`socketOk({messageId, alreadyDeleted: true})` for an already-deleted
message. -/
inductive DeleteResult where
  | error (msg : String)
  | ok (message : Message)
  | okAlreadyDeleted (messageId : String)
deriving Repr, DecidableEq

/-- The `message:delete` handler: look the message up; fail with
`"Message not found"` when absent; acknowledge
`{messageId, alreadyDeleted: true}` when already soft-deleted; fail with
`"Not your message"` / `"No access to conversation"` in that order;
otherwise set `deleted_at = now()`, emit `message:deleted` and
acknowledge with the updated row. -/
def deleteMessage (db : DbState) (userId messageId : String)
    (now : Nat) : DbState × DeleteResult × List Event :=
  match findMessage db messageId with
  | none => (db, .error "Message not found", [])
  | some existing =>
    if existing.deletedAt.isSome then
      (db, .okAlreadyDeleted messageId, [])
    else if existing.senderUserId ≠ userId then
      (db, .error "Not your message", [])
    else if ¬ ensureConversationAccess db existing.conversationId userId then
      (db, .error "No access to conversation", [])
    else
      let message : Message := { existing with deletedAt := some now }
      let db2 : DbState :=
        { db with
          messages := db.messages.map
            (fun m => if m.id = messageId
              then { m with deletedAt := some now } else m) }
      (db2, .ok message,
        [.messageDeleted message.id message.conversationId now userId])

/-- Acknowledgment of the `message:send` handler. -/
inductive SendResult where
  | error (msg : String)
  | ok (message : Message)
deriving Repr, DecidableEq

/-- The `message:send` handler: check conversation access (failing with
`"No access to conversation"`), insert the message row, set the
sender's own `last_read_at` to now, emit `message:new` and acknowledge
with the created row.  `newId` stands for the id the store generates
for the inserted row. -/
def sendMessage (db : DbState) (userId conversationId body : String)
    (newId : String) (now : Nat) : DbState × SendResult × List Event :=
  if ¬ ensureConversationAccess db conversationId userId then
    (db, .error "No access to conversation", [])
  else
    let message : Message := ⟨newId, conversationId, userId, body, now, none, none⟩
    let db2 : DbState :=
      { db with
        messages := db.messages ++ [message]
        participants := db.participants.map
          (fun p => if p.conversationId = conversationId ∧ p.userId = userId
            then { p with lastReadAt := some now } else p) }
    (db2, .ok message, [.messageNew message])

/-- Acknowledgment of the `conversation:read` handler:
`socketOk({conversationId, readAt})`. -/
inductive ReadResult where
  | error (msg : String)
  | ok (conversationId : String) (readAt : Option Nat)
deriving Repr, DecidableEq

/-- The `conversation:read` handler, with the store state at each of
its two awaited queries made explicit: the access check runs against
`dbCheck`, the `UPDATE conversation_participants ... RETURNING
last_read_at` against `dbUpdate` (the two coincide unless a concurrent
writer intervened between the queries).  `readAt` is
`updated.rows[0]?.last_read_at ?? null`; the handler emits
`conversation:read` and acknowledges `{conversationId, readAt}`. -/
def conversationReadAt (dbCheck dbUpdate : DbState)
    (userId conversationId : String) (now : Nat) :
    DbState × ReadResult × List Event :=
  if ¬ ensureConversationAccess dbCheck conversationId userId then
    (dbUpdate, .error "No access to conversation", [])
  else
    let matched := dbUpdate.participants.filter
      (fun p => p.conversationId = conversationId ∧ p.userId = userId)
    let db2 : DbState :=
      { dbUpdate with
        participants := dbUpdate.participants.map
          (fun p => if p.conversationId = conversationId ∧ p.userId = userId
            then { p with lastReadAt := some now } else p) }
    let readAt : Option Nat := if matched.isEmpty then none else some now
    (db2, .ok conversationId readAt,
      [.conversationRead conversationId userId readAt])

/-- The `conversation:read` handler when no concurrent writer runs
between its two queries. -/
def conversationRead (db : DbState) (userId conversationId : String)
    (now : Nat) : DbState × ReadResult × List Event :=
  conversationReadAt db db userId conversationId now

/-! Rooms: `conversation:join` and `conversation:leave` -/

/-- The set of rooms one socket is joined to (socket.io `socket.join` /
`socket.leave`). -/
structure SocketRooms where
  rooms : List String
deriving Repr, DecidableEq

/-- Call `socket.join(room)`. -/
def joinRoom (s : SocketRooms) (room : String) : SocketRooms :=
  if room ∈ s.rooms then s else ⟨s.rooms ++ [room]⟩

/-- Call `socket.leave(room)`. -/
def leaveRoom (s : SocketRooms) (room : String) : SocketRooms :=
  ⟨s.rooms.filter (fun r => r ≠ room)⟩

/-- Acknowledgment of `conversation:join` / `conversation:leave`:
`{ok: false, error, details: null}` or `{ok: true, conversationId}`.
The guard's `socketError("No access to conversation")` passes no
details, so `details` is `null` (`none`). -/
inductive JoinResult where
  | error (msg : String) (details : Option String)
  | ok (conversationId : String)
deriving Repr, DecidableEq

/-- The `conversation:join` handler: check access (failing with
`socketError("No access to conversation")`, leaving the socket's rooms
untouched), else join the conversation room and acknowledge. -/
def conversationJoin (db : DbState) (sock : SocketRooms)
    (userId conversationId : String) : SocketRooms × JoinResult :=
  if ¬ ensureConversationAccess db conversationId userId then
    (sock, .error "No access to conversation" none)
  else
    (joinRoom sock (conversationRoom conversationId), .ok conversationId)

/-- The `conversation:leave` handler: no access check; leave the room
and acknowledge. -/
def conversationLeave (sock : SocketRooms) (conversationId : String) :
    SocketRooms × JoinResult :=
  (leaveRoom sock (conversationRoom conversationId), .ok conversationId)

/-! Handler `presence:batch` -/

/-- A hexadecimal digit, as in the uuid format check of the payload
schema. -/
def isHexDigit (c : Char) : Bool :=
  c.isDigit || (('a' ≤ c && c ≤ 'f') || ('A' ≤ c && c ≤ 'F'))

/-- Consume exactly `n` hexadecimal digits from the front of `l`,
returning the remainder. -/
def hexRun : List Char → Nat → Option (List Char)
  | rest, 0 => some rest
  | c :: rest, n + 1 => if isHexDigit c then hexRun rest n else none
  | [], _ + 1 => none

/-- Consume one hyphen from the front of `l`. -/
def dashRun : List Char → Option (List Char)
  | '-' :: rest => some rest
  | _ => none

/-- Consume one character satisfying `p` from the front of `l`. -/
def nibbleRun (p : Char → Bool) : List Char → Option (List Char)
  | c :: rest => if p c then some rest else none
  | [] => none

/-- A uuid version nibble, `[1-8]` in the schema's regex. -/
def isVersionNibble (c : Char) : Bool :=
  '1' ≤ c && c ≤ '8'

/-- A uuid variant nibble, `[89abAB]` in the schema's regex. -/
def isVariantNibble (c : Char) : Bool :=
  c = '8' || c = '9' || c = 'a' || c = 'b' || c = 'A' || c = 'B'

/-- The uuid element check of `presenceBatchSchema` (zod's
`z.string().uuid()`): the 8-4-4-4-12 hyphenated hexadecimal format with
the version nibble restricted to `[1-8]` and the variant nibble to
`[89abAB]`, the nil uuid accepted as a special case. -/
def isUuid (s : String) : Bool :=
  s = "00000000-0000-0000-0000-000000000000" ||
  (do
    let r1 ← hexRun s.toList 8
    let r2 ← dashRun r1
    let r3 ← hexRun r2 4
    let r4 ← dashRun r3
    let r5 ← nibbleRun isVersionNibble r4
    let r6 ← hexRun r5 3
    let r7 ← dashRun r6
    let r8 ← nibbleRun isVariantNibble r7
    let r9 ← hexRun r8 3
    let r10 ← dashRun r9
    let r11 ← hexRun r10 12
    if r11.isEmpty then some () else none).isSome

/-- Schema `presenceBatchSchema`: `userIds` is an array of uuid strings with
`.min(1).max(200)`. -/
def presenceBatchValid (userIds : List String) : Bool :=
  1 ≤ userIds.length && userIds.length ≤ 200 && userIds.all isUuid

/-- JS `[...new Set(xs)]`: deduplication keeping the first occurrence of
each element, in insertion order. -/
def dedupFirst (xs : List String) : List String :=
  xs.foldl (fun acc x => if x ∈ acc then acc else acc ++ [x]) []

/-- Acknowledgment of the `presence:batch` handler: a validation error
(`socketError("Invalid payload", details)`) or
`socketOk({items: [{userId, isOnline}]})`. -/
inductive BatchResult where
  | invalid
  | ok (items : List (String × Bool))
deriving Repr, DecidableEq

/-- The `presence:batch` handler: reject payloads failing
`presenceBatchSchema` with `socketError("Invalid payload", ...)` before
touching the registry; otherwise deduplicate the ids and answer one
`{userId, isOnline}` item per unique id from `isUserOnline`. -/
def presenceBatch (reg : Registry) (userIds : List String) : BatchResult :=
  if ¬ presenceBatchValid userIds then .invalid
  else
    .ok ((dedupFirst userIds).map (fun id => (id, isUserOnline reg id)))

/-! Connection lifecycle and presence broadcasts -/

/-- One connection-lifecycle event for a fixed user: a new socket
connecting, or a connected socket disconnecting. -/
inductive ConnEvent where
  | connect (socketId : String)
  | disconnect (socketId : String)
deriving Repr, DecidableEq

/-- One step of the `io.on("connection")` handler's presence logic for
a fixed user: on connect, `addOnlineSocket` and — only when it reported
`becameOnline` — a call to `emitPresenceForUser(io, userId, true)`; on
disconnect, `removeOnlineSocket` and — only when it reported
`becameOffline` — a call to `emitPresenceForUser(io, userId, false)`.
The `Option Bool` records whether the presence broadcast to the user's
conversations was fired and with which `isOnline` flag. -/
def lifecycleStep (reg : Registry) (userId : String) :
    ConnEvent → Registry × Option Bool
  | .connect socketId =>
    let r := addOnlineSocket reg userId socketId
    (r.1, if r.2 then some true else none)
  | .disconnect socketId =>
    let r := removeOnlineSocket reg userId socketId
    (r.1, if r.2 then some false else none)

/-- Observation of one lifecycle step: the user's online status before
and after it, and the presence broadcast it fired (if any). -/
structure StepLog where
  before : Bool
  after : Bool
  emitted : Option Bool
deriving Repr, DecidableEq

/-- Run a sequence of connects/disconnects for one user, logging each
step. -/
def lifecycleTrace (reg : Registry) (userId : String) :
    List ConnEvent → List StepLog
  | [] => []
  | ev :: rest =>
    let s := lifecycleStep reg userId ev
    ⟨isUserOnline reg userId, isUserOnline s.1 userId, s.2⟩ ::
      lifecycleTrace s.1 userId rest

/-- Registry states reachable by the code: a user entry is deleted as
soon as its socket set empties, so every stored set is non-empty. -/
def RegistryWF (reg : Registry) : Prop := ∀ e ∈ reg, e.2 ≠ ([] : List String)

/-! Store failures and the per-handler `try`/`catch`

Every inbound-event handler of `chat.socket.js` wraps its body in
`try { ... } catch (err) { return safeAck(ack, socketError(err.message ||
"<per-handler generic>")) }`.  A thrown store error therefore becomes
an error acknowledgment — `err.message` when non-empty (JS `||` takes
the fallback only for a falsy, i.e. empty, message) — and no broadcast
is emitted (all `io.to(...).emit` calls sit after the last query). -/

/-- Acknowledgment sent by a handler: `{ok: true, ...}` or
`{ok: false, error: msg}`. -/
inductive HandlerAck (α : Type) where
  | ok (value : α)
  | err (msg : String)
deriving Repr, DecidableEq

/-- The `try`/`catch` wrapper shared by every handler: a body that
throws `e` is turned into the acknowledgment
`socketError(e || generic)` with no events emitted; a body that
completes hands back its acknowledgment and events unchanged. -/
def catchHandler {α : Type} (generic : String)
    (body : Except String (HandlerAck α × List Event)) :
    HandlerAck α × List Event :=
  match body with
  | .ok r => r
  | .error e => (.err (if e = "" then generic else e), [])

/-- Which of the three store queries of the `message:send` handler
throws (`none` everywhere: no fault). -/
structure SendFaults where
  accessFault : Option String
  insertFault : Option String
  updateFault : Option String
deriving Repr, DecidableEq

/-- The `message:send` handler with explicit store faults: each of its
three queries (access `SELECT`, message `INSERT`, last-read `UPDATE`)
may throw, in which case the `catch` acknowledges
`socketError(err.message || "Failed to send message")`; writes
performed before the throw persist, and no `message:new` is emitted. -/
def sendMessageFallible (db : DbState)
    (userId conversationId body newId : String) (now : Nat)
    (f : SendFaults) : DbState × SendResult × List Event :=
  match f.accessFault with
  | some e =>
    (db, .error (if e = "" then "Failed to send message" else e), [])
  | none =>
    if ¬ ensureConversationAccess db conversationId userId then
      (db, .error "No access to conversation", [])
    else
      match f.insertFault with
      | some e =>
        (db, .error (if e = "" then "Failed to send message" else e), [])
      | none =>
        let message : Message :=
          ⟨newId, conversationId, userId, body, now, none, none⟩
        let db1 : DbState := { db with messages := db.messages ++ [message] }
        match f.updateFault with
        | some e =>
          (db1, .error (if e = "" then "Failed to send message" else e), [])
        | none =>
          let db2 : DbState :=
            { db1 with
              participants := db1.participants.map
                (fun p =>
                  if p.conversationId = conversationId ∧ p.userId = userId
                  then { p with lastReadAt := some now } else p) }
          (db2, .ok message, [.messageNew message])

/-- The connection handler's presence registration with the online
fan-out's outcome made explicit: `emitPresenceForUser(...)` runs as a
background promise whose failure is only logged
(`.catch(err => console.error(...))`), so the registry update, the
decision to attempt the broadcast, and the `chat:ready` emit do not
depend on `emitFault`.  Returns (registry, broadcast attempted,
`chat:ready` emitted). -/
def connectionStep (reg : Registry) (userId socketId : String)
    (emitFault : Option String) : Registry × Bool × Bool :=
  let r := addOnlineSocket reg userId socketId
  let _logged := emitFault
  (r.1, r.2, true)

/-- The disconnect handler with the offline fan-out's outcome made
explicit; as on connect, a fan-out failure is logged and swallowed.
Returns (registry, broadcast attempted). -/
def disconnectionStep (reg : Registry) (userId socketId : String)
    (emitFault : Option String) : Registry × Bool :=
  let r := removeOnlineSocket reg userId socketId
  let _logged := emitFault
  (r.1, r.2)

/-! Sample data for concrete evaluations -/

/-- Hexadecimal digit characters, for building sample uuids. -/
def hexChar (n : Nat) : Char :=
  "0123456789abcdef".toList.getD n '0'

/-- A sample version-4, variant-8 uuid whose first three hex digits
encode `i` (least-significant digit first, so distinct ids differ
early). -/
def sampleUuid (i : Nat) : String :=
  String.mk [hexChar (i % 16), hexChar ((i / 16) % 16), hexChar ((i / 256) % 16)]
    ++ "00000-0000-4000-8000-000000000000"

/-- Two hundred pairwise-distinct sample uuids. -/
def sampleIds200 : List String := (List.range 200).map sampleUuid




/-- Reading back the key just written into the registry. -/
theorem registryGet_set_self (reg : Registry) (k : String) (v : List String) :
    registryGet (registrySet reg k v) k = some v := by
  unfold registrySet registryGet
  by_cases h : (reg.find? (fun e => e.1 = k)).isSome
  · simp only [h, if_true]
    induction reg with
    | nil => simp at h
    | cons e rest ih =>
      by_cases he : e.1 = k
      · simp [List.find?_cons, he]
      · have h' : (rest.find? (fun e : String × List String => e.1 = k)).isSome := by
          simpa [List.find?_cons, he] using h
        simpa [List.find?_cons, he] using ih h'
  · simp only [h, if_false]
    have hnone : reg.find? (fun e : String × List String => e.1 = k) = none := by
      cases hf : reg.find? (fun e : String × List String => e.1 = k) with
      | none => rfl
      | some x => rw [hf] at h; simp at h
    simp [List.find?_append, hnone, List.find?_cons]

/-- A deleted key is gone from the registry. -/
theorem registryGet_delete_self (reg : Registry) (k : String) :
    registryGet (registryDelete reg k) k = none := by
  unfold registryGet registryDelete
  have h : (reg.filter (fun e : String × List String => e.1 ≠ k)).find?
      (fun e : String × List String => e.1 = k) = none := by
    rw [List.find?_eq_none]
    intro x hx
    have hm := (List.mem_filter.mp hx).2
    simp at hm
    simp [hm]
  simp [h]

/-- Claim C3: for every user `u`, `isUserOnline u` is true iff the
presence registry holds a non-empty connection set for `u`;
`addOnlineSocket u c` returns true exactly when `u` had no live
connection; `removeOnlineSocket u c` returns true only if it empties
`u`'s connection set — the entry being removed entirely, leaving `u`
offline; and adding then removing the same single connection for a
previously-offline user restores `isUserOnline u` to false. -/
theorem presence_registry_contract :
    (∀ reg u, isUserOnline reg u = true ↔
        ∃ s, registryGet reg u = some s ∧ s ≠ []) ∧
    (∀ reg u c, (addOnlineSocket reg u c).2 = true ↔ isUserOnline reg u = false) ∧
    (∀ reg u c, (removeOnlineSocket reg u c).2 = true →
        registryGet (removeOnlineSocket reg u c).1 u = none ∧
        isUserOnline (removeOnlineSocket reg u c).1 u = false) ∧
    (∀ reg u c, isUserOnline reg u = false →
        isUserOnline (removeOnlineSocket (addOnlineSocket reg u c).1 u c).1 u = false) := by
  refine ⟨?_, ?_, ?_, ?_⟩
  · intro reg u
    unfold isUserOnline
    cases hg : registryGet reg u with
    | none => simp
    | some s => cases s with
      | nil => simp
      | cons a t => simp
  · intro reg u c
    unfold addOnlineSocket isUserOnline
    cases hg : registryGet reg u with
    | none => simp
    | some s => cases s with
      | nil => simp
      | cons a t => simp
  · intro reg u c h
    unfold removeOnlineSocket at h ⊢
    cases hg : registryGet reg u with
    | none => rw [hg] at h; simp at h
    | some s =>
      rw [hg] at h
      dsimp only at h ⊢
      by_cases hr : (setDelete s c).length = 0
      · simp only [hr, if_true]
        constructor
        · exact registryGet_delete_self reg u
        · unfold isUserOnline
          rw [registryGet_delete_self]
      · rw [if_neg hr] at h; simp at h
  · intro reg u c h
    have hex : (registryGet reg u).getD [] = [] := by
      unfold isUserOnline at h
      cases hg : registryGet reg u with
      | none => rfl
      | some s =>
        rw [hg] at h
        cases s with
        | nil => rfl
        | cons a t => simp at h
    have hadd : (addOnlineSocket reg u c).1 = registrySet reg u [c] := by
      unfold addOnlineSocket
      rw [hex]
      simp [setAdd]
    rw [hadd]
    unfold removeOnlineSocket
    rw [registryGet_set_self]
    dsimp only
    have hdel : setDelete [c] c = [] := by simp [setDelete]
    rw [hdel]
    simp only [List.length_nil, if_true]
    unfold isUserOnline
    rw [registryGet_delete_self]

/-- A socket set is never empty right after an add. -/
theorem setAdd_ne_nil (s : List String) (x : String) : setAdd s x ≠ [] := by
  unfold setAdd
  by_cases h : x ∈ s
  · simp only [h, if_true]
    intro hs
    subst hs
    simp at h
  · simp [h]

/-- In a well-formed registry every stored set is non-empty. -/
theorem registryGet_wf_ne_nil {reg : Registry} {u : String} {s : List String}
    (hwf : RegistryWF reg) (hg : registryGet reg u = some s) : s ≠ [] := by
  unfold registryGet at hg
  rcases Option.map_eq_some'.mp hg with ⟨e, hfind, hsnd⟩
  have hmem := List.mem_of_find?_eq_some hfind
  subst hsnd
  exact hwf e hmem

/-- Writing a non-empty set preserves registry well-formedness. -/
theorem registryWF_set {reg : Registry} {k : String} {v : List String}
    (hwf : RegistryWF reg) (hv : v ≠ []) : RegistryWF (registrySet reg k v) := by
  unfold registrySet
  by_cases h : (reg.find? (fun e : String × List String => e.1 = k)).isSome
  · simp only [h, if_true]
    intro e he
    rcases List.mem_map.mp he with ⟨e1, he1, rfl⟩
    by_cases hk : e1.1 = k
    · simpa [hk] using hv
    · simpa [hk] using hwf e1 he1
  · simp only [h, if_false]
    intro e he
    rcases List.mem_cons.mp he with h1 | h1
    · subst h1; exact hv
    · exact hwf e h1

/-- Deleting an entry preserves registry well-formedness. -/
theorem registryWF_delete {reg : Registry} {k : String}
    (hwf : RegistryWF reg) : RegistryWF (registryDelete reg k) := by
  unfold registryDelete
  intro e he
  exact hwf e (List.mem_filter.mp he).1

/-- One lifecycle step fires the presence broadcast exactly when the
user's online status changes, the broadcast flag equals the new status,
and registry well-formedness is preserved. -/
theorem lifecycleStep_spec (reg : Registry) (u : String) (ev : ConnEvent)
    (hwf : RegistryWF reg) :
    ((lifecycleStep reg u ev).2.isSome ↔
      isUserOnline reg u ≠ isUserOnline (lifecycleStep reg u ev).1 u) ∧
    (∀ b, (lifecycleStep reg u ev).2 = some b →
      isUserOnline (lifecycleStep reg u ev).1 u = b ∧ isUserOnline reg u = !b) ∧
    RegistryWF (lifecycleStep reg u ev).1 := by
  cases ev with
  | connect sid =>
    have hafter : isUserOnline (lifecycleStep reg u (.connect sid)).1 u = true := by
      unfold lifecycleStep addOnlineSocket isUserOnline
      dsimp only
      rw [registryGet_set_self]
      have hne := setAdd_ne_nil ((registryGet reg u).getD []) sid
      cases hs : setAdd ((registryGet reg u).getD []) sid with
      | nil => exact absurd hs hne
      | cons a t => simp
    have hwf1 : RegistryWF (lifecycleStep reg u (.connect sid)).1 := by
      unfold lifecycleStep addOnlineSocket
      dsimp only
      exact registryWF_set hwf (setAdd_ne_nil _ _)
    have hemit : (lifecycleStep reg u (.connect sid)).2 =
        if isUserOnline reg u = true then none else some true := by
      unfold lifecycleStep addOnlineSocket isUserOnline
      dsimp only
      cases hg : registryGet reg u with
      | none => simp
      | some s =>
        cases s with
        | nil => simp
        | cons a t => simp
    refine ⟨?_, ?_, hwf1⟩
    · cases hb : isUserOnline reg u <;> simp [hemit, hafter, hb]
    · intro b hsome
      cases hb : isUserOnline reg u <;>
        rw [hemit, hb] at hsome <;> simp at hsome
      subst hsome
      exact ⟨hafter, rfl⟩
  | disconnect sid =>
    unfold lifecycleStep removeOnlineSocket
    dsimp only
    cases hg : registryGet reg u with
    | none =>
      refine ⟨by simp, by simp, hwf⟩
    | some s =>
      have hs : s ≠ [] := registryGet_wf_ne_nil hwf hg
      have hbefore : isUserOnline reg u = true := by
        unfold isUserOnline
        rw [hg]
        cases s with
        | nil => exact absurd rfl hs
        | cons a t => simp
      by_cases hr : (setDelete s sid).length = 0
      · have hafter : isUserOnline (registryDelete reg u) u = false := by
          unfold isUserOnline
          rw [registryGet_delete_self]
        refine ⟨?_, ?_, ?_⟩
        · simp [hr, hafter, hbefore]
        · intro b hsome
          simp only [hr, if_true] at hsome
          simp at hsome
          subst hsome
          simp [hr, hafter, hbefore]
        · simp only [hr, if_true]
          exact registryWF_delete hwf
      · have hafter : isUserOnline (registrySet reg u (setDelete s sid)) u = true := by
          unfold isUserOnline
          rw [registryGet_set_self]
          cases hd : setDelete s sid with
          | nil => exact absurd (by rw [hd]; rfl) hr
          | cons a t => simp
        refine ⟨?_, ?_, ?_⟩
        · simp [hr, hafter, hbefore]
        · intro b hsome
          simp [hr] at hsome
        · simp only [hr, if_false]
          refine registryWF_set hwf ?_
          intro hd
          rw [hd] at hr
          exact hr rfl

/-- Claim C4: over any sequence of connects and disconnects for one
user, the presence broadcast to the user's conversations fires exactly
once per offline-to-online transition (on the connect whose registry
add reported the set was empty, carrying `isOnline = true`) and exactly
once per online-to-offline transition (on the disconnect whose registry
remove emptied the set, carrying `isOnline = false`), and never for an
intermediate add or remove while other connections remain live: in
every step of the trace, a broadcast is fired iff the online status
changed across that step, and its flag equals the new status. -/
theorem lifecycleTrace_spec (u : String) :
    ∀ (evs : List ConnEvent) (reg : Registry), RegistryWF reg →
      ∀ log ∈ lifecycleTrace reg u evs,
        (log.emitted.isSome ↔ log.before ≠ log.after) ∧
        (∀ b, log.emitted = some b → log.after = b ∧ log.before = !b) := by
  intro evs
  induction evs with
  | nil =>
    intro reg hwf log hlog
    simp [lifecycleTrace] at hlog
  | cons ev rest ih =>
    intro reg hwf log hlog
    rw [lifecycleTrace] at hlog
    rcases List.mem_cons.mp hlog with h | h
    · subst h
      dsimp only
      have hspec := lifecycleStep_spec reg u ev hwf
      exact ⟨hspec.1, hspec.2.1⟩
    · exact ih (lifecycleStep reg u ev).1 (lifecycleStep_spec reg u ev hwf).2.2 log h

/-- Updating rows in place commutes with looking a row up by id. -/
theorem find?_update_id (ms : List Message) (mid : String) (g : Message → Message)
    (hg : ∀ m, (g m).id = m.id) :
    (ms.map (fun m => if m.id = mid then g m else m)).find?
        (fun m => m.id = mid)
      = (ms.find? (fun m => m.id = mid)).map g := by
  induction ms with
  | nil => rfl
  | cons m rest ih =>
    by_cases h : m.id = mid
    · simp [List.find?_cons, h, hg]
    · simp [List.find?_cons, h, ih]

/-- Appending an edit row for the same message raises the maximum version. -/
theorem maxEditVersion_snoc (db db2 : DbState) (mid : String) (e : MessageEdit)
    (h : db2.messageEdits = db.messageEdits ++ [e])
    (he : e.messageId = mid) :
    maxEditVersion db2 mid = max (maxEditVersion db mid) e.version := by
  unfold maxEditVersion
  rw [h, List.filter_append, List.foldl_append]
  simp [he]

/-- When all four checks pass, `message:edit` appends the next-version
history row carrying the pre-edit body and rewrites the message row. -/
theorem editMessage_success (db : DbState) (uid mid b : String) (t : Nat)
    (m : Message)
    (hfind : findMessage db mid = some m)
    (hdel : m.deletedAt = none)
    (hsender : m.senderUserId = uid)
    (hacc : ensureConversationAccess db m.conversationId uid = true) :
    editMessage db uid mid b t =
      ({ db with
         messageEdits := db.messageEdits ++
           [⟨mid, maxEditVersion db mid + 1, m.body, uid, t⟩],
         messages := db.messages.map
           (fun x => if x.id = mid
             then { x with body := b, editedAt := some t } else x) },
       .ok { m with body := b, editedAt := some t },
       [.messageUpdated { m with body := b, editedAt := some t }]) := by
  unfold editMessage
  rw [hfind]
  dsimp only
  rw [hdel, hsender]
  simp [hacc]

/-- Claim C1: for every `message:edit` that passes all four checks, the
handler appends a `MessageEdit` row with version
`1 + max(existing version for this message)` (0 if none) preserving the
pre-edit body with the editor's id, and updates the message row's body
and `edited_at`; consequently editing the same message twice from its
sender produces `MessageEdit` versions 1 then 2, each storing the body
prior to that edit, and the final message body equals the last edit's
new body. -/
theorem edit_version_history_double_edit :
    (∀ db uid mid b t m,
      findMessage db mid = some m →
      m.deletedAt = none →
      m.senderUserId = uid →
      ensureConversationAccess db m.conversationId uid = true →
      (editMessage db uid mid b t).1.messageEdits
          = db.messageEdits ++ [⟨mid, maxEditVersion db mid + 1, m.body, uid, t⟩] ∧
      (editMessage db uid mid b t).2.1
          = .ok { m with body := b, editedAt := some t } ∧
      findMessage (editMessage db uid mid b t).1 mid
          = some { m with body := b, editedAt := some t }) ∧
    (∀ db uid mid b1 b2 t1 t2 m,
      findMessage db mid = some m →
      m.deletedAt = none →
      m.senderUserId = uid →
      ensureConversationAccess db m.conversationId uid = true →
      maxEditVersion db mid = 0 →
      (editMessage (editMessage db uid mid b1 t1).1 uid mid b2 t2).1.messageEdits
          = db.messageEdits ++ [⟨mid, 1, m.body, uid, t1⟩, ⟨mid, 2, b1, uid, t2⟩] ∧
      findMessage (editMessage (editMessage db uid mid b1 t1).1 uid mid b2 t2).1 mid
          = some { m with body := b2, editedAt := some t2 }) := by
  constructor
  · intro db uid mid b t m hfind hdel hsender hacc
    rw [editMessage_success db uid mid b t m hfind hdel hsender hacc]
    refine ⟨rfl, rfl, ?_⟩
    unfold findMessage at hfind ⊢
    dsimp only
    rw [find?_update_id db.messages mid
      (fun x => { x with body := b, editedAt := some t }) (fun x => rfl), hfind]
    rfl
  · intro db uid mid b1 b2 t1 t2 m hfind hdel hsender hacc h0
    rw [editMessage_success db uid mid b1 t1 m hfind hdel hsender hacc]
    dsimp only
    set db1 : DbState :=
      { db with
        messageEdits := db.messageEdits ++
          [⟨mid, maxEditVersion db mid + 1, m.body, uid, t1⟩],
        messages := db.messages.map
          (fun x => if x.id = mid
            then { x with body := b1, editedAt := some t1 } else x) } with hdb1
    have hfind1 : findMessage db1 mid
        = some { m with body := b1, editedAt := some t1 } := by
      unfold findMessage at hfind ⊢
      rw [hdb1]
      dsimp only
      rw [find?_update_id db.messages mid
        (fun x => { x with body := b1, editedAt := some t1 }) (fun x => rfl), hfind]
      rfl
    have hmax1 : maxEditVersion db1 mid = 1 := by
      rw [maxEditVersion_snoc db db1 mid
        ⟨mid, maxEditVersion db mid + 1, m.body, uid, t1⟩ (by rw [hdb1]) rfl, h0]
      simp
    rw [editMessage_success db1 uid mid b2 t2
      { m with body := b1, editedAt := some t1 } hfind1 hdel hsender hacc]
    constructor
    · rw [hmax1, hdb1]
      dsimp only
      rw [h0]
      simp
    · unfold findMessage
      rw [hdb1]
      dsimp only
      rw [find?_update_id _ mid
        (fun x => { x with body := b2, editedAt := some t2 }) (fun x => rfl)]
      rw [find?_update_id db.messages mid
        (fun x => { x with body := b1, editedAt := some t1 }) (fun x => rfl)]
      unfold findMessage at hfind
      rw [hfind]
      rfl

/-- Claim C2: for every `message:edit` and `message:delete` request the
failure checks run in the fixed order message-not-found, then
already-deleted, then not-the-sender, then no-conversation-access, and
the first failing check determines the outcome: a nonexistent message
id always yields `"Message not found"` regardless of anything else; a
deleted message — in particular one belonging to someone else without
access — yields the deleted-state outcome (`"Message is deleted"` for
edit, the `alreadyDeleted` acknowledgment for delete), never the
ownership or access error; a live message of another sender yields
`"Not your message"` even without access; and a live own message
without access yields `"No access to conversation"`. -/
theorem edit_delete_error_precedence :
    (∀ db uid mid b t, findMessage db mid = none →
        (editMessage db uid mid b t).2.1 = .error "Message not found" ∧
        (deleteMessage db uid mid t).2.1 = .error "Message not found") ∧
    (∀ db uid mid b t m d, findMessage db mid = some m → m.deletedAt = some d →
        (editMessage db uid mid b t).2.1 = .error "Message is deleted" ∧
        (deleteMessage db uid mid t).2.1 = .okAlreadyDeleted mid) ∧
    (∀ db uid mid b t m, findMessage db mid = some m → m.deletedAt = none →
        m.senderUserId ≠ uid →
        (editMessage db uid mid b t).2.1 = .error "Not your message" ∧
        (deleteMessage db uid mid t).2.1 = .error "Not your message") ∧
    (∀ db uid mid b t m, findMessage db mid = some m → m.deletedAt = none →
        m.senderUserId = uid →
        ensureConversationAccess db m.conversationId uid = false →
        (editMessage db uid mid b t).2.1 = .error "No access to conversation" ∧
        (deleteMessage db uid mid t).2.1 = .error "No access to conversation") := by
  refine ⟨?_, ?_, ?_, ?_⟩
  · intro db uid mid b t hfind
    unfold editMessage deleteMessage
    rw [hfind]
    exact ⟨rfl, rfl⟩
  · intro db uid mid b t m d hfind hdel
    unfold editMessage deleteMessage
    rw [hfind]
    dsimp only
    rw [hdel]
    exact ⟨rfl, rfl⟩
  · intro db uid mid b t m hfind hdel hsender
    unfold editMessage deleteMessage
    rw [hfind]
    dsimp only
    rw [hdel]
    simp [hsender]
  · intro db uid mid b t m hfind hdel hsender hacc
    unfold editMessage deleteMessage
    rw [hfind]
    dsimp only
    rw [hdel, hsender]
    simp [hacc]

/-- Claim C5: `message:delete` is idempotent — for every message that
is already soft-deleted, a delete request acknowledges success with
`alreadyDeleted: true`, emits no second `message:deleted` event, and
leaves the store unchanged (`deleted_at` is not overwritten); the
statement needs no ownership or access hypotheses because those checks
are never reached. -/
theorem delete_already_deleted_noop (db : DbState) (uid mid : String)
    (t : Nat) (m : Message) (d : Nat)
    (hfind : findMessage db mid = some m) (hdel : m.deletedAt = some d) :
    deleteMessage db uid mid t = (db, .okAlreadyDeleted mid, []) := by
  unfold deleteMessage
  rw [hfind]
  dsimp only
  rw [hdel]
  simp

/-- Claim C6: for every `message:send` by a sender with no
`ConversationParticipant` row for (conversation, sender), the handler
acknowledges `"No access to conversation"` and performs no insert: the
store is unchanged (no message row, no last-read update) and no
`message:new` event is broadcast. -/
theorem send_without_access_no_insert (db : DbState)
    (uid cid b newId : String) (t : Nat)
    (hacc : ensureConversationAccess db cid uid = false) :
    sendMessage db uid cid b newId t
      = (db, .error "No access to conversation", []) := by
  unfold sendMessage
  simp [hacc]

/-- Membership in the set-insertion fold. -/
theorem mem_foldl_insert (xs : List String) :
    ∀ acc y,
      (y ∈ xs.foldl (fun acc x => if x ∈ acc then acc else acc ++ [x]) acc)
        ↔ y ∈ acc ∨ y ∈ xs := by
  induction xs with
  | nil =>
    intro acc y
    simp
  | cons x rest ih =>
    intro acc y
    rw [List.foldl_cons, ih]
    by_cases h : x ∈ acc
    · simp only [h, if_true, List.mem_cons]
      constructor
      · rintro (h1 | h1)
        · exact Or.inl h1
        · exact Or.inr (Or.inr h1)
      · rintro (h1 | h1 | h1)
        · exact Or.inl h1
        · subst h1
          exact Or.inl h
        · exact Or.inr h1
    · simp only [h, if_false, List.mem_append, List.mem_cons,
        List.mem_singleton]
      tauto

/-- The set-insertion fold keeps the accumulator duplicate-free. -/
theorem nodup_foldl_insert (xs : List String) :
    ∀ acc, acc.Nodup →
      (xs.foldl (fun acc x => if x ∈ acc then acc else acc ++ [x]) acc).Nodup := by
  induction xs with
  | nil =>
    intro acc h
    simpa using h
  | cons x rest ih =>
    intro acc h
    rw [List.foldl_cons]
    by_cases hx : x ∈ acc
    · simp only [hx, if_true]
      exact ih acc h
    · simp only [hx, if_false]
      refine ih _ ?_
      rw [List.nodup_append]
      refine ⟨h, List.nodup_singleton x, ?_⟩
      intro a ha hax
      rw [List.mem_singleton] at hax
      subst hax
      exact hx ha

/-- The set-insertion fold appends fresh duplicate-free input unchanged. -/
theorem foldl_insert_of_disjoint (xs : List String) :
    ∀ acc, (∀ x ∈ xs, x ∉ acc) → xs.Nodup →
      xs.foldl (fun acc x => if x ∈ acc then acc else acc ++ [x]) acc
        = acc ++ xs := by
  induction xs with
  | nil =>
    intro acc _ _
    simp
  | cons x rest ih =>
    intro acc hdisj hnd
    rw [List.foldl_cons]
    have hx : x ∉ acc := hdisj x (List.mem_cons_self x rest)
    simp only [hx, if_false]
    have hstep : ∀ y ∈ rest, y ∉ acc ++ [x] := by
      intro y hy
      rw [List.mem_append, List.mem_singleton]
      rintro (hc | rfl)
      · exact hdisj y (List.mem_cons_of_mem _ hy) hc
      · exact (List.nodup_cons.mp hnd).1 hy
    rw [ih (acc ++ [x]) hstep (List.Nodup.of_cons hnd)]
    simp

/-- Deduplication preserves membership. -/
theorem mem_dedupFirst (xs : List String) (y : String) :
    y ∈ dedupFirst xs ↔ y ∈ xs := by
  unfold dedupFirst
  rw [mem_foldl_insert]
  simp

/-- Deduplication yields a duplicate-free list. -/
theorem nodup_dedupFirst (xs : List String) : (dedupFirst xs).Nodup :=
  nodup_foldl_insert xs [] List.nodup_nil

/-- Deduplicating a duplicate-free list changes nothing. -/
theorem dedupFirst_of_nodup {xs : List String} (h : xs.Nodup) :
    dedupFirst xs = xs := by
  unfold dedupFirst
  have hd := foldl_insert_of_disjoint xs [] (by simp) h
  simpa using hd

/-- Claim C7: `presence:batch` rejects a payload with 0 ids or more
than 200 ids as a validation error before touching any registry state
(the result is `.invalid` for every registry); for an accepted payload
it deduplicates the input ids and returns one `(userId, isOnline)` item
per unique id with `isOnline` read from the registry; in particular a
request of 200 pairwise-distinct valid ids returns exactly 200
entries. -/
theorem presence_batch_validation_and_dedup :
    (∀ reg userIds, userIds.length = 0 ∨ 200 < userIds.length →
        presenceBatch reg userIds = .invalid) ∧
    (∀ reg userIds, presenceBatchValid userIds = true →
        presenceBatch reg userIds
          = .ok ((dedupFirst userIds).map (fun id => (id, isUserOnline reg id))) ∧
        (dedupFirst userIds).Nodup ∧
        (∀ x, x ∈ dedupFirst userIds ↔ x ∈ userIds)) ∧
    (∀ reg userIds, presenceBatchValid userIds = true → userIds.Nodup →
        presenceBatch reg userIds
          = .ok (userIds.map (fun id => (id, isUserOnline reg id))) ∧
        (userIds.map (fun id => (id, isUserOnline reg id))).length
          = userIds.length) := by
  refine ⟨?_, ?_, ?_⟩
  · intro reg userIds h
    rcases h with h | h
    · simp [presenceBatch, presenceBatchValid, h]
    · have h2 : ¬ (userIds.length ≤ 200) := by omega
      simp [presenceBatch, presenceBatchValid, h2]
  · intro reg userIds h
    refine ⟨by simp [presenceBatch, h], nodup_dedupFirst userIds,
      fun x => mem_dedupFirst userIds x⟩
  · intro reg userIds h hnd
    refine ⟨?_, by simp⟩
    simp [presenceBatch, h, dedupFirst_of_nodup hnd]

/-- Claim C8: `conversation:join` is gated by the access guard — for
every user with no participant row for the conversation, the join is
acknowledged with exactly `socketError("No access to conversation")`
(that is, `ok: false` with `details: null`) and the connection is not
added to the conversation's room — while `conversation:leave` performs
no access check and always acknowledges success for any conversation
id. -/
theorem join_gated_leave_ungated :
    (∀ db sock uid cid, ensureConversationAccess db cid uid = false →
        conversationJoin db sock uid cid
          = (sock, .error "No access to conversation" none) ∧
        (conversationRoom cid ∉ sock.rooms →
          conversationRoom cid ∉ (conversationJoin db sock uid cid).1.rooms)) ∧
    (∀ sock cid, conversationLeave sock cid
        = (leaveRoom sock (conversationRoom cid), .ok cid)) := by
  constructor
  · intro db sock uid cid hacc
    have hj : conversationJoin db sock uid cid
        = (sock, .error "No access to conversation" none) := by
      unfold conversationJoin
      simp [hacc]
    refine ⟨hj, fun hnot => ?_⟩
    rw [hj]
    exact hnot
  · intro sock cid
    rfl

/-- Claim C10: in `conversation:read`, if the access check passes but
the subsequent `last_read_at` update matches no participant row (the
row vanished in the check-then-act gap), the handler still acknowledges
success with `ok: true`, the conversation id and a null `readAt`, and
still broadcasts a `conversation:read` event whose `readAt` is null,
even though no row was mutated. -/
theorem read_gap_acks_null (dbCheck dbUpdate : DbState)
    (uid cid : String) (t : Nat)
    (hacc : ensureConversationAccess dbCheck cid uid = true)
    (hgone : ∀ p ∈ dbUpdate.participants,
      ¬(p.conversationId = cid ∧ p.userId = uid)) :
    conversationReadAt dbCheck dbUpdate uid cid t
      = (dbUpdate, .ok cid none, [.conversationRead cid uid none]) := by
  unfold conversationReadAt
  have hfil : dbUpdate.participants.filter
      (fun p => p.conversationId = cid ∧ p.userId = uid) = [] := by
    rw [List.filter_eq_nil_iff]
    intro p hp
    simpa using hgone p hp
  have hmap : dbUpdate.participants.map
      (fun p => if p.conversationId = cid ∧ p.userId = uid
        then { p with lastReadAt := some t } else p)
      = dbUpdate.participants := by
    conv_rhs => rw [← List.map_id dbUpdate.participants]
    apply List.map_congr_left
    intro p hp
    simp [hgone p hp]
  simp [hacc, hfil, hmap]
  intro p hp hc hu
  exact hgone p hp ⟨hc, hu⟩

/-- Counterexample to claim C9 as stated: a store failure whose thrown
error carries a non-empty message is acknowledged with that message —
here `"connect ETIMEDOUT"` — not with the handler's generic message
`"Failed to send message"`. -/
theorem store_failure_ack_not_generic :
    (sendMessageFallible ⟨[], [], [⟨"c1", "u1", none⟩]⟩ "u1" "c1" "hello" "m1" 0
        ⟨some "connect ETIMEDOUT", none, none⟩).2.1
      = .error "connect ETIMEDOUT" ∧
    SendResult.error "connect ETIMEDOUT"
      ≠ SendResult.error "Failed to send message" := by
  constructor
  · rfl
  · simp

/-- Claim C9 (amended): for every inbound event handler, a thrown
store error is reported to the caller via the acknowledgment — carrying
the thrown error's message, or the handler's generic fallback message
when that message is empty — with no broadcast emitted, and the handler
never crashes (the `try`/`catch` wrapper always produces an
acknowledgment); the fault-free handler coincides with the plain one;
and background broadcast failures during connect/disconnect presence
fan-out are logged and swallowed without affecting the connection
lifecycle. -/
theorem store_failure_acked_and_swallowed :
    (∀ (α : Type) (generic : String)
        (body : Except String (HandlerAck α × List Event)) (e : String),
        body = .error e →
        catchHandler generic body
          = (.err (if e = "" then generic else e), [])) ∧
    (∀ db uid cid b newId t e f, f.accessFault = some e →
        sendMessageFallible db uid cid b newId t f
          = (db, .error (if e = "" then "Failed to send message" else e), [])) ∧
    (∀ db uid cid b newId t e f, f.accessFault = none →
        f.insertFault = some e →
        ensureConversationAccess db cid uid = true →
        sendMessageFallible db uid cid b newId t f
          = (db, .error (if e = "" then "Failed to send message" else e), [])) ∧
    (∀ db uid cid b newId t e f, f.accessFault = none →
        f.insertFault = none → f.updateFault = some e →
        ensureConversationAccess db cid uid = true →
        (sendMessageFallible db uid cid b newId t f).2.1
          = .error (if e = "" then "Failed to send message" else e) ∧
        (sendMessageFallible db uid cid b newId t f).2.2 = []) ∧
    (∀ db uid cid b newId t,
        sendMessageFallible db uid cid b newId t ⟨none, none, none⟩
          = sendMessage db uid cid b newId t) ∧
    (∀ reg uid sid fault,
        connectionStep reg uid sid fault = connectionStep reg uid sid none) ∧
    (∀ reg uid sid fault,
        disconnectionStep reg uid sid fault
          = disconnectionStep reg uid sid none) := by
  refine ⟨?_, ?_, ?_, ?_, ?_, ?_, ?_⟩
  · intro α generic body e hbody
    rw [hbody]
    rfl
  · intro db uid cid b newId t e f hf
    rcases f with ⟨af, inf, uf⟩
    cases hf
    rfl
  · intro db uid cid b newId t e f hf1 hf2 hacc
    rcases f with ⟨af, inf, uf⟩
    cases hf1
    cases hf2
    unfold sendMessageFallible
    simp [hacc]
  · intro db uid cid b newId t e f hf1 hf2 hf3 hacc
    rcases f with ⟨af, inf, uf⟩
    cases hf1
    cases hf2
    cases hf3
    unfold sendMessageFallible
    simp [hacc]
  · intro db uid cid b newId t
    rfl
  · intro reg uid sid fault
    rfl
  · intro reg uid sid fault
    rfl

/-- Witness for C1 at a concrete store. -/
theorem edit_version_history_double_edit_witness :
    (editMessage ⟨[⟨"m1", "c1", "u1", "hello", 0, none, none⟩], [],
        [⟨"c1", "u1", none⟩]⟩ "u1" "m1" "hello there" 5).1.messageEdits
      = [⟨"m1", 1, "hello", "u1", 5⟩] ∧
    (editMessage (editMessage ⟨[⟨"m1", "c1", "u1", "hello", 0, none, none⟩], [],
        [⟨"c1", "u1", none⟩]⟩ "u1" "m1" "b1" 5).1 "u1" "m1" "b2" 6).1.messageEdits
      = [⟨"m1", 1, "hello", "u1", 5⟩, ⟨"m1", 2, "b1", "u1", 6⟩] ∧
    findMessage (editMessage (editMessage
        ⟨[⟨"m1", "c1", "u1", "hello", 0, none, none⟩], [],
          [⟨"c1", "u1", none⟩]⟩ "u1" "m1" "b1" 5).1 "u1" "m1" "b2" 6).1 "m1"
      = some ⟨"m1", "c1", "u1", "b2", 0, some 6, none⟩ := by
  refine ⟨?_, ?_, ?_⟩
  · exact (edit_version_history_double_edit.1
      ⟨[⟨"m1", "c1", "u1", "hello", 0, none, none⟩], [], [⟨"c1", "u1", none⟩]⟩
      "u1" "m1" "hello there" 5
      ⟨"m1", "c1", "u1", "hello", 0, none, none⟩ rfl rfl rfl rfl).1
  · exact (edit_version_history_double_edit.2
      ⟨[⟨"m1", "c1", "u1", "hello", 0, none, none⟩], [], [⟨"c1", "u1", none⟩]⟩
      "u1" "m1" "b1" "b2" 5 6
      ⟨"m1", "c1", "u1", "hello", 0, none, none⟩ rfl rfl rfl rfl rfl).1
  · exact (edit_version_history_double_edit.2
      ⟨[⟨"m1", "c1", "u1", "hello", 0, none, none⟩], [], [⟨"c1", "u1", none⟩]⟩
      "u1" "m1" "b1" "b2" 5 6
      ⟨"m1", "c1", "u1", "hello", 0, none, none⟩ rfl rfl rfl rfl rfl).2

/-- Witness for C2 at concrete stores covering all four outcomes. -/
theorem edit_delete_error_precedence_witness :
    (editMessage ⟨[], [], []⟩ "u1" "m1" "x" 5).2.1 = .error "Message not found" ∧
    (deleteMessage ⟨[], [], []⟩ "u1" "m1" 5).2.1 = .error "Message not found" ∧
    (editMessage ⟨[⟨"m1", "c1", "u2", "x", 0, none, some 3⟩], [], []⟩
        "u1" "m1" "y" 5).2.1 = .error "Message is deleted" ∧
    (deleteMessage ⟨[⟨"m1", "c1", "u2", "x", 0, none, some 3⟩], [], []⟩
        "u1" "m1" 5).2.1 = .okAlreadyDeleted "m1" ∧
    (editMessage ⟨[⟨"m1", "c1", "u2", "x", 0, none, none⟩], [], []⟩
        "u1" "m1" "y" 5).2.1 = .error "Not your message" ∧
    (deleteMessage ⟨[⟨"m1", "c1", "u2", "x", 0, none, none⟩], [], []⟩
        "u1" "m1" 5).2.1 = .error "Not your message" ∧
    (editMessage ⟨[⟨"m1", "c1", "u1", "x", 0, none, none⟩], [], []⟩
        "u1" "m1" "y" 5).2.1 = .error "No access to conversation" ∧
    (deleteMessage ⟨[⟨"m1", "c1", "u1", "x", 0, none, none⟩], [], []⟩
        "u1" "m1" 5).2.1 = .error "No access to conversation" := by
  refine ⟨?_, ?_, ?_, ?_, ?_, ?_, ?_, ?_⟩
  · exact (edit_delete_error_precedence.1 ⟨[], [], []⟩ "u1" "m1" "x" 5 rfl).1
  · exact (edit_delete_error_precedence.1 ⟨[], [], []⟩ "u1" "m1" "x" 5 rfl).2
  · exact (edit_delete_error_precedence.2.1
      ⟨[⟨"m1", "c1", "u2", "x", 0, none, some 3⟩], [], []⟩ "u1" "m1" "y" 5
      ⟨"m1", "c1", "u2", "x", 0, none, some 3⟩ 3 rfl rfl).1
  · exact (edit_delete_error_precedence.2.1
      ⟨[⟨"m1", "c1", "u2", "x", 0, none, some 3⟩], [], []⟩ "u1" "m1" "y" 5
      ⟨"m1", "c1", "u2", "x", 0, none, some 3⟩ 3 rfl rfl).2
  · exact (edit_delete_error_precedence.2.2.1
      ⟨[⟨"m1", "c1", "u2", "x", 0, none, none⟩], [], []⟩ "u1" "m1" "y" 5
      ⟨"m1", "c1", "u2", "x", 0, none, none⟩ rfl rfl (by simp)).1
  · exact (edit_delete_error_precedence.2.2.1
      ⟨[⟨"m1", "c1", "u2", "x", 0, none, none⟩], [], []⟩ "u1" "m1" "y" 5
      ⟨"m1", "c1", "u2", "x", 0, none, none⟩ rfl rfl (by simp)).2
  · exact (edit_delete_error_precedence.2.2.2
      ⟨[⟨"m1", "c1", "u1", "x", 0, none, none⟩], [], []⟩ "u1" "m1" "y" 5
      ⟨"m1", "c1", "u1", "x", 0, none, none⟩ rfl rfl rfl rfl).1
  · exact (edit_delete_error_precedence.2.2.2
      ⟨[⟨"m1", "c1", "u1", "x", 0, none, none⟩], [], []⟩ "u1" "m1" "y" 5
      ⟨"m1", "c1", "u1", "x", 0, none, none⟩ rfl rfl rfl rfl).2

/-- Witness for C3 at a concrete registry. -/
theorem presence_registry_contract_witness :
    registryGet (removeOnlineSocket [("u1", ["s1"])] "u1" "s1").1 "u1" = none ∧
    isUserOnline (removeOnlineSocket [("u1", ["s1"])] "u1" "s1").1 "u1" = false ∧
    isUserOnline (removeOnlineSocket (addOnlineSocket [] "u1" "s1").1
        "u1" "s1").1 "u1" = false := by
  refine ⟨?_, ?_, ?_⟩
  · exact (presence_registry_contract.2.2.1 [("u1", ["s1"])] "u1" "s1"
      (by decide)).1
  · exact (presence_registry_contract.2.2.1 [("u1", ["s1"])] "u1" "s1"
      (by decide)).2
  · exact presence_registry_contract.2.2.2 [] "u1" "s1" rfl

/-- Witness for C4 on a concrete two-connection session: its first step
(offline to online) and last step (online to offline). -/
theorem lifecycleTrace_spec_witness :
    StepLog.mk false true (some true) ∈ lifecycleTrace [] "u1"
        [.connect "s1", .connect "s2", .disconnect "s1", .disconnect "s2"] ∧
    StepLog.mk true false (some false) ∈ lifecycleTrace [] "u1"
        [.connect "s1", .connect "s2", .disconnect "s1", .disconnect "s2"] ∧
    ((StepLog.mk false true (some true)).emitted.isSome
      ↔ (StepLog.mk false true (some true)).before
          ≠ (StepLog.mk false true (some true)).after) ∧
    ((StepLog.mk true false (some false)).after = false
      ∧ (StepLog.mk true false (some false)).before = !false) := by
  have h := lifecycleTrace_spec "u1"
    [.connect "s1", .connect "s2", .disconnect "s1", .disconnect "s2"] []
    (by intro e he; simp at he)
  have hmem1 : StepLog.mk false true (some true) ∈ lifecycleTrace [] "u1"
      [.connect "s1", .connect "s2", .disconnect "s1", .disconnect "s2"] := by
    decide
  have hmem2 : StepLog.mk true false (some false) ∈ lifecycleTrace [] "u1"
      [.connect "s1", .connect "s2", .disconnect "s1", .disconnect "s2"] := by
    decide
  exact ⟨hmem1, hmem2, (h _ hmem1).1, (h _ hmem2).2 false rfl⟩

/-- Witness for C5 at a concrete store. -/
theorem delete_already_deleted_noop_witness :
    deleteMessage ⟨[⟨"m1", "c1", "u2", "x", 0, none, some 3⟩], [], []⟩
        "u1" "m1" 9
      = (⟨[⟨"m1", "c1", "u2", "x", 0, none, some 3⟩], [], []⟩,
         .okAlreadyDeleted "m1", []) :=
  delete_already_deleted_noop
    ⟨[⟨"m1", "c1", "u2", "x", 0, none, some 3⟩], [], []⟩ "u1" "m1" 9
    ⟨"m1", "c1", "u2", "x", 0, none, some 3⟩ 3 rfl rfl

/-- Witness for C6 at a concrete store. -/
theorem send_without_access_no_insert_witness :
    sendMessage ⟨[], [], []⟩ "u1" "c1" "hi" "m9" 4
      = (⟨[], [], []⟩, .error "No access to conversation", []) :=
  send_without_access_no_insert ⟨[], [], []⟩ "u1" "c1" "hi" "m9" 4 rfl

set_option maxRecDepth 8000 in
set_option maxHeartbeats 2000000 in
/-- The 200 sample ids pass the payload schema. -/
theorem sampleIds200_valid : presenceBatchValid sampleIds200 = true := by
  decide

set_option maxRecDepth 8000 in
set_option maxHeartbeats 2000000 in
/-- The 200 sample ids are pairwise distinct. -/
theorem sampleIds200_nodup : sampleIds200.Nodup := by
  decide

set_option maxRecDepth 8000 in
set_option maxHeartbeats 2000000 in
/-- Witness for C7, including a 200-id payload. -/
theorem presence_batch_validation_and_dedup_witness :
    presenceBatch [] ([] : List String) = .invalid ∧
    presenceBatch [] (List.replicate 201 "x") = .invalid ∧
    presenceBatch [] ["00000000-0000-0000-0000-000000000000",
        "00000000-0000-0000-0000-000000000000"]
      = .ok [("00000000-0000-0000-0000-000000000000", false)] ∧
    presenceBatch [] sampleIds200
      = .ok (sampleIds200.map (fun id => (id, isUserOnline [] id))) ∧
    (sampleIds200.map (fun id => (id, isUserOnline [] id))).length = 200 := by
  refine ⟨?_, ?_, ?_, ?_, ?_⟩
  · exact presence_batch_validation_and_dedup.1 [] [] (Or.inl rfl)
  · exact presence_batch_validation_and_dedup.1 [] (List.replicate 201 "x")
      (Or.inr (by decide))
  · exact (presence_batch_validation_and_dedup.2.1 []
      ["00000000-0000-0000-0000-000000000000",
       "00000000-0000-0000-0000-000000000000"] (by decide)).1
  · exact (presence_batch_validation_and_dedup.2.2 [] sampleIds200
      sampleIds200_valid sampleIds200_nodup).1
  · rw [(presence_batch_validation_and_dedup.2.2 [] sampleIds200
      sampleIds200_valid sampleIds200_nodup).2]
    simp [sampleIds200]

/-- Witness for C8 at a concrete store and socket. -/
theorem join_gated_leave_ungated_witness :
    conversationJoin ⟨[], [], []⟩ ⟨[]⟩ "uX" "c1"
      = (⟨[]⟩, .error "No access to conversation" none) ∧
    conversationRoom "c1" ∉ (conversationJoin ⟨[], [], []⟩ ⟨[]⟩ "uX" "c1").1.rooms := by
  refine ⟨?_, ?_⟩
  · exact (join_gated_leave_ungated.1 ⟨[], [], []⟩ ⟨[]⟩ "uX" "c1" rfl).1
  · exact (join_gated_leave_ungated.1 ⟨[], [], []⟩ ⟨[]⟩ "uX" "c1" rfl).2
      (by simp)

/-- Witness for C9 at concrete faults. -/
theorem store_failure_acked_and_swallowed_witness :
    catchHandler "Failed to send message"
        (Except.error "boom" : Except String (HandlerAck Message × List Event))
      = (.err "boom", []) ∧
    sendMessageFallible ⟨[], [], []⟩ "u1" "c1" "hi" "m9" 4
        ⟨some "boom", none, none⟩
      = (⟨[], [], []⟩, .error "boom", []) ∧
    sendMessageFallible ⟨[], [], [⟨"c1", "u1", none⟩]⟩ "u1" "c1" "hi" "m9" 4
        ⟨none, some "", none⟩
      = (⟨[], [], [⟨"c1", "u1", none⟩]⟩,
         .error "Failed to send message", []) ∧
    connectionStep [] "u1" "s1" (some "fanout failed")
      = connectionStep [] "u1" "s1" none := by
  refine ⟨?_, ?_, ?_, ?_⟩
  · exact store_failure_acked_and_swallowed.1 Message "Failed to send message"
      (Except.error "boom") "boom" rfl
  · exact store_failure_acked_and_swallowed.2.1 ⟨[], [], []⟩ "u1" "c1" "hi"
      "m9" 4 "boom" ⟨some "boom", none, none⟩ rfl
  · exact store_failure_acked_and_swallowed.2.2.1
      ⟨[], [], [⟨"c1", "u1", none⟩]⟩ "u1" "c1" "hi" "m9" 4 ""
      ⟨none, some "", none⟩ rfl rfl (by decide)
  · exact store_failure_acked_and_swallowed.2.2.2.2.2.1 [] "u1" "s1"
      (some "fanout failed")

/-- Witness for C10 at concrete snapshots. -/
theorem read_gap_acks_null_witness :
    conversationReadAt ⟨[], [], [⟨"c1", "u1", none⟩]⟩ ⟨[], [], []⟩
        "u1" "c1" 7
      = (⟨[], [], []⟩, .ok "c1" none, [.conversationRead "c1" "u1" none]) :=
  read_gap_acks_null ⟨[], [], [⟨"c1", "u1", none⟩]⟩ ⟨[], [], []⟩ "u1" "c1" 7
    (by decide) (by intro p hp; simp at hp)

end ChatSocket
